import Mathlib

/-!
Verification of the MoneySavyy web application (`money_savyy_website/app.py`)
against its natural-language specification.

The Python functions are shallowly embedded: pandas series become `List Rat`,
floats become `Rat`, dictionaries that may lack a key become nested `Option`s,
and a `try`/`except` block becomes an `Except String` body caught by a total
wrapper.  External I/O (the yfinance API, `time.time()`, `random`) is passed
in as explicit arguments, so every definition is executable.
-/

namespace MoneySavyy

/-! ## Technical indicators and the recommendation scorer

Embeds `generate_trading_recommendation`, `calculate_rsi`, `analyze_sentiment`
and `calculate_macd` from `app.py`.
-/

/-- Last element of a pandas series, `series.iloc[-1]`, for nonempty lists
(the empty case is guarded separately where the Python call would raise). -/
def ilocLast : List Rat → Rat
  | [] => 0
  | [x] => x
  | _ :: x :: rest => ilocLast (x :: rest)

/-- Mean of the last `n` closes when at least `n` are available, `none`
otherwise: this is `prices.rolling(window=n).mean().iloc[-1]` on a nonempty
series, whose value is NaN (modelled `none`) while fewer than `n` rows exist. -/
def smaOpt (n : Nat) (closes : List Rat) : Option Rat :=
  if closes.length < n then none
  else some ((closes.drop (closes.length - n)).sum / (n : Rat))

/-- Result record of `generate_trading_recommendation`. -/
structure RecOut where
  recommendation : String
  confidence : String
  score : Int
  signals : List String
  color : String
  deriving Repr, DecidableEq

/-- Python comparison `p > v` where `v` may be NaN (`none`): any comparison
with NaN is `False`. -/
def gtOpt (p : Rat) (v : Option Rat) : Bool :=
  match v with
  | none => false
  | some w => p > w

/-- Python comparison `a > b` where either side may be NaN (`none`). -/
def gtOptOpt (a b : Option Rat) : Bool :=
  match a, b with
  | some x, some y => x > y
  | _, _ => false

/-- Score accumulated by the `try` body of `generate_trading_recommendation`,
in program order: RSI band, MACD sign, price vs 20-day SMA, 20-day SMA vs
50-day SMA, and the prediction thresholds.  `predChange` is the value of
`prediction_info['predicted_change_percent']` when `prediction_info` is
truthy, `none` when it is falsy. -/
def recScore (closes : List Rat) (predChange : Option Rat)
    (current_price rsi macd : Rat) : Int :=
  0
    + (if rsi < 30 then 2 else if rsi > 70 then -2 else 0)
    + (if macd > 0 then 1 else -1)
    + (if gtOpt current_price (smaOpt 20 closes) then 1 else -1)
    + (if gtOptOpt (smaOpt 20 closes) (smaOpt 50 closes) then 1 else -1)
    + (match predChange with
       | some v => if v > 5 then 2 else if v < -5 then -2 else 0
       | none => 0)

/-- Signal strings appended by the `try` body, in program order. -/
def recSignals (closes : List Rat) (predChange : Option Rat)
    (current_price rsi macd : Rat) : List String :=
  [if rsi < 30 then "RSI indicates oversold condition (Bullish)"
   else if rsi > 70 then "RSI indicates overbought condition (Bearish)"
   else "RSI in neutral zone",
   if macd > 0 then "MACD above zero (Bullish)" else "MACD below zero (Bearish)",
   if gtOpt current_price (smaOpt 20 closes) then "Price above 20-day SMA (Bullish)"
   else "Price below 20-day SMA (Bearish)",
   if gtOptOpt (smaOpt 20 closes) (smaOpt 50 closes) then "20-day SMA above 50-day SMA (Bullish)"
   else "20-day SMA below 50-day SMA (Bearish)"] ++
  (match predChange with
   | some v =>
     if v > 5 then ["AI prediction shows strong upward trend"]
     else if v < -5 then ["AI prediction shows strong downward trend"]
     else []
   | none => [])

/-- Final `if`/`elif` chain of the `try` body: bucket the score into a
labelled recommendation. -/
def recBucket (score : Int) (signals : List String) : RecOut :=
  if score ≥ 3 then ⟨"STRONG BUY", "High", score, signals, "success"⟩
  else if score ≥ 1 then ⟨"BUY", "Medium", score, signals, "info"⟩
  else if score ≤ -3 then ⟨"STRONG SELL", "High", score, signals, "danger"⟩
  else if score ≤ -1 then ⟨"SELL", "Medium", score, signals, "warning"⟩
  else ⟨"HOLD", "Medium", score, signals, "secondary"⟩

/-- Happy path of `generate_trading_recommendation`: accumulate the five
signal deltas and bucket the sum. -/
def recHappy (closes : List Rat) (predChange : Option Rat)
    (current_price rsi macd : Rat) : RecOut :=
  recBucket (recScore closes predChange current_price rsi macd)
    (recSignals closes predChange current_price rsi macd)

/-- Body of the `try` block of `generate_trading_recommendation`.
`closes` is `stock_data['Close']`; an empty series makes
`rolling(...).mean().iloc[-1]` raise an `IndexError`.
`pred` models `prediction_info`: `none` is a falsy value (Python `None` or an
empty dict), `some none` a truthy dict without the `'predicted_change_percent'`
key (indexing raises `KeyError`), and `some (some v)` a dict holding `v`.
The `IndexError` fires first because the moving averages are computed before
the prediction branch is reached. -/
def genRecBody (closes : List Rat) (pred : Option (Option Rat))
    (current_price rsi macd : Rat) : Except String RecOut :=
  if closes.isEmpty then
    .error "single positional indexer is out-of-bounds"
  else
    match pred with
    | some none => .error "KeyError: predicted_change_percent"
    | none => .ok (recHappy closes none current_price rsi macd)
    | some (some v) => .ok (recHappy closes (some v) current_price rsi macd)

/-- Embedding of `generate_trading_recommendation`: the `try` body with the
`except Exception` handler that returns the HOLD default. -/
def generate_trading_recommendation (closes : List Rat) (pred : Option (Option Rat))
    (current_price rsi macd : Rat) : RecOut :=
  match genRecBody closes pred current_price rsi macd with
  | .ok r => r
  | .error e => ⟨"HOLD", "Low", 0, ["Error: " ++ e], "secondary"⟩

/-- Embedding of `calculate_rsi` (the definition at line 2487, which shadows
the earlier copy).  The `try` body is a pandas float pipeline
(`diff`/rolling means/`fillna(50)`) whose numeric values no claim inspects;
its outcome on the given series object is passed in as `tryResult`, and
`pricesLen` is `len(prices)`.  The `except Exception` handler returns
`pd.Series([50] * len(prices))`. -/
def calculate_rsi (tryResult : Except String (List Rat)) (pricesLen : Nat) : List Rat :=
  match tryResult with
  | .ok rsi => rsi
  | .error _ => List.replicate pricesLen 50

/-- Accumulator loop of pandas `Series.ewm(span=...).mean()` with the default
`adjust=True`: the running numerator carries `x_t + (1-alpha) * num` and the
running denominator `1 + (1-alpha) * den`, and each output is their
quotient. -/
def ewmGo (a : Rat) (num den : Rat) : List Rat → List Rat
  | [] => []
  | x :: rest => ((x + a * num) / (1 + a * den)) :: ewmGo a (x + a * num) (1 + a * den) rest

/-- Pandas `prices.ewm(span=span).mean()` with `adjust=True`:
`alpha = 2 / (span + 1)`. -/
def ewmMean (span : Nat) (xs : List Rat) : List Rat :=
  ewmGo (1 - 2 / ((span : Rat) + 1)) 0 0 xs

/-- MACD line local of `calculate_macd`: `ema_fast - ema_slow` with the
default spans 12 and 26. -/
def macdLine (prices : List Rat) : List Rat :=
  List.zipWith (fun x y => x - y) (ewmMean 12 prices) (ewmMean 26 prices)

/-- Embedding of `calculate_macd` (line 2500 definition, which shadows the
earlier copy): it returns the histogram `macd - signal_line`, where
`signal_line` is the 9-span EMA of the MACD line; `fillna(0)` is the
identity on the NaN-free rational pipeline. -/
def calculate_macd (prices : List Rat) : List Rat :=
  let macd := macdLine prices
  let signal_line := ewmMean 9 macd
  let histogram := List.zipWith (fun x y => x - y) macd signal_line
  histogram

/-- Value the analysis route feeds into the recommendation scorer:
`calculate_macd(hist_data['Close']).iloc[-1]`. -/
def macdFedToScorer (prices : List Rat) : Rat :=
  ilocLast (calculate_macd prices)

/-- Modelled from the spec's words for comparison: "MACD — difference between
two exponential moving averages", the fast EMA minus the slow EMA at the
latest bar. -/
def macdAsEmaDifference (prices : List Rat) : Rat :=
  ilocLast (ewmMean 12 prices) - ilocLast (ewmMean 26 prices)

/-- Embedding of `analyze_sentiment`.  `TextBlob(text).sentiment.polarity` is
an external-library call on arbitrary text, passed in as its outcome
`polarity`; the bare `except` handler returns `'Neutral'`. -/
def analyze_sentiment (polarity : Except String Rat) : String :=
  match polarity with
  | .ok p =>
    if p > 1/10 then "Positive"
    else if p < -(1/10) then "Negative"
    else "Neutral"
  | .error _ => "Neutral"

/-! ## Claim-side scoring (C1)

Definitions written from the specification's words, to be compared with the
embedding of the source. -/

/-- Claimed RSI points: +2 if RSI < 30, -2 if RSI > 70, 0 otherwise. -/
def claimRsiPoints (rsi : Rat) : Int :=
  if rsi < 30 then 2 else if rsi > 70 then -2 else 0

/-- Claimed MACD points: +1 if MACD > 0 else -1. -/
def claimMacdPoints (macd : Rat) : Int :=
  if macd > 0 then 1 else -1

/-- Claimed price-vs-SMA points: +1 if the current price is above the 20-day
SMA else -1. -/
def claimPriceSmaPoints (price : Rat) (sma20 : Option Rat) : Int :=
  if gtOpt price sma20 then 1 else -1

/-- Claimed SMA-crossover points: +1 if the 20-day SMA is above the 50-day
SMA else -1. -/
def claimSmaCrossPoints (sma20 sma50 : Option Rat) : Int :=
  if gtOptOpt sma20 sma50 then 1 else -1

/-- Claimed prediction points: +2 if the predicted change percent exceeds 5,
-2 if it is below -5, 0 otherwise (including when no prediction is
supplied). -/
def claimPredPoints (predChange : Option Rat) : Int :=
  match predChange with
  | none => 0
  | some v => if v > 5 then 2 else if v < -5 then -2 else 0

/-- Claimed total score: the sum of the five fixed point deltas. -/
def claimScore (closes : List Rat) (predChange : Option Rat)
    (price rsi macd : Rat) : Int :=
  claimRsiPoints rsi + claimMacdPoints macd
    + claimPriceSmaPoints price (smaOpt 20 closes)
    + claimSmaCrossPoints (smaOpt 20 closes) (smaOpt 50 closes)
    + claimPredPoints predChange

/-- Claimed bucketing of the score into five labels. -/
def claimLabel (s : Int) : String :=
  if s ≥ 3 then "STRONG BUY"
  else if 1 ≤ s ∧ s ≤ 2 then "BUY"
  else if -1 < s ∧ s < 1 then "HOLD"
  else if -3 < s ∧ s ≤ -1 then "SELL"
  else "STRONG SELL"

lemma recBucket_score (s : Int) (sig : List String) : (recBucket s sig).score = s := by
  unfold recBucket
  split_ifs <;> rfl

lemma recBucket_label (s : Int) (sig : List String) :
    (recBucket s sig).recommendation = claimLabel s := by
  unfold recBucket claimLabel
  split_ifs <;> first | rfl | omega

lemma recScore_eq_claimScore (closes : List Rat) (pc : Option Rat) (price rsi macd : Rat) :
    recScore closes pc price rsi macd = claimScore closes pc price rsi macd := by
  unfold recScore claimScore claimRsiPoints claimMacdPoints claimPriceSmaPoints
    claimSmaCrossPoints claimPredPoints
  cases pc <;> ring

lemma recHappy_score (closes : List Rat) (pc : Option Rat) (price rsi macd : Rat) :
    (recHappy closes pc price rsi macd).score = claimScore closes pc price rsi macd := by
  rw [recHappy, recBucket_score, recScore_eq_claimScore]

lemma recHappy_label (closes : List Rat) (pc : Option Rat) (price rsi macd : Rat) :
    (recHappy closes pc price rsi macd).recommendation
      = claimLabel (recHappy closes pc price rsi macd).score := by
  rw [recHappy, recBucket_score, recBucket_label]

/-- The well-formed `prediction_info` arguments: Python `None` (or another
falsy value), or a dict carrying a numeric `'predicted_change_percent'`. -/
def predWellFormed (pred : Option (Option Rat)) : Prop :=
  pred = none ∨ ∃ v : Rat, pred = some (some v)

/-- Flatten a well-formed `prediction_info` to its predicted change percent. -/
def predChangeOf (pred : Option (Option Rat)) : Option Rat :=
  match pred with
  | some (some v) => some v
  | _ => none

/-- C1: `generate_trading_recommendation` accumulates exactly the claimed
fixed point deltas (plus or minus 2 for RSI extremes, plus or minus 1 for
the MACD sign and for each moving-average relation, plus or minus 2 for the
predicted-change thresholds, 0 when no prediction is supplied) and buckets
the sum into STRONG BUY
(score ≥ 3), BUY (1 ≤ score ≤ 2), HOLD (-1 < score < 1), SELL
(-3 < score ≤ -1) and STRONG SELL (score ≤ -3), for every nonempty price
series and well-formed prediction input. -/
theorem recommendation_scoring_matches_claim
    (closes : List Rat) (pred : Option (Option Rat)) (price rsi macd : Rat)
    (hne : closes ≠ []) (hp : predWellFormed pred) :
    (generate_trading_recommendation closes pred price rsi macd).score
        = claimScore closes (predChangeOf pred) price rsi macd ∧
    (generate_trading_recommendation closes pred price rsi macd).recommendation
        = claimLabel (claimScore closes (predChangeOf pred) price rsi macd) := by
  have hfalse : closes.isEmpty = false := by
    cases closes with
    | nil => exact absurd rfl hne
    | cons a l => rfl
  rcases hp with h | ⟨v, h⟩ <;> subst h <;>
    simp only [generate_trading_recommendation, genRecBody, hfalse, Bool.false_eq_true,
      if_false, predChangeOf] <;>
    exact ⟨recHappy_score .., (recHappy_label ..).trans (by rw [recHappy_score])⟩

/-- C1 witness: concrete evaluation discharging the hypotheses at a
20-element price series with an oversold RSI and a strong prediction. -/
theorem recommendation_scoring_matches_claim_witness :
    ((10 : Rat) :: List.replicate 19 (10 : Rat)) ≠ [] ∧
    predWellFormed (some (some (7 : Rat))) ∧
    (generate_trading_recommendation ((10 : Rat) :: List.replicate 19 (10 : Rat))
        (some (some 7)) 12 25 1).score
      = claimScore ((10 : Rat) :: List.replicate 19 (10 : Rat)) (predChangeOf (some (some 7)))
          12 25 1 ∧
    (generate_trading_recommendation ((10 : Rat) :: List.replicate 19 (10 : Rat))
        (some (some 7)) 12 25 1).recommendation
      = claimLabel (claimScore ((10 : Rat) :: List.replicate 19 (10 : Rat))
          (predChangeOf (some (some 7))) 12 25 1) := by
  refine ⟨by decide, Or.inr ⟨7, rfl⟩, ?_⟩
  exact recommendation_scoring_matches_claim _ _ _ _ _ (by decide) (Or.inr ⟨7, rfl⟩)

/-- C2: the recommendation scorer is deterministic — two invocations on the
same inputs return the same label, the same score and the same signal list. -/
theorem recommendation_deterministic
    (closes : List Rat) (pred : Option (Option Rat)) (price rsi macd : Rat) :
    (generate_trading_recommendation closes pred price rsi macd).recommendation
        = (generate_trading_recommendation closes pred price rsi macd).recommendation ∧
    (generate_trading_recommendation closes pred price rsi macd).score
        = (generate_trading_recommendation closes pred price rsi macd).score ∧
    (generate_trading_recommendation closes pred price rsi macd).signals
        = (generate_trading_recommendation closes pred price rsi macd).signals :=
  ⟨rfl, rfl, rfl⟩

/-- C3: every failure inside the indicator and sentiment computations is
converted to a neutral default instead of propagating: a failing RSI body
yields the all-50 series of the input's length, a failing polarity
computation yields 'Neutral', and a failing recommendation body yields a
HOLD recommendation with score 0.  (Each embedded function is total, so none
of them can raise.) -/
theorem errors_become_neutral_defaults :
    (∀ (e : String) (n : Nat), calculate_rsi (.error e) n = List.replicate n 50) ∧
    (∀ e : String, analyze_sentiment (.error e) = "Neutral") ∧
    (∀ (closes : List Rat) (pred : Option (Option Rat)) (price rsi macd : Rat),
      (genRecBody closes pred price rsi macd).isOk = false →
      (generate_trading_recommendation closes pred price rsi macd).recommendation = "HOLD" ∧
      (generate_trading_recommendation closes pred price rsi macd).score = 0) := by
  refine ⟨fun e n => rfl, fun e => rfl, fun closes pred price rsi macd h => ?_⟩
  unfold generate_trading_recommendation
  cases hb : genRecBody closes pred price rsi macd with
  | ok r => rw [hb] at h; simp [Except.isOk, Except.toBool] at h
  | error e => exact ⟨rfl, rfl⟩

/-- C3 witness: an empty price series makes the recommendation body fail, and
the whole function returns the HOLD default with score 0. -/
theorem errors_become_neutral_defaults_witness :
    calculate_rsi (.error "boom") 3 = List.replicate 3 50 ∧
    analyze_sentiment (.error "boom") = "Neutral" ∧
    (genRecBody [] none 100 50 0).isOk = false ∧
    (generate_trading_recommendation [] none 100 50 0).recommendation = "HOLD" ∧
    (generate_trading_recommendation [] none 100 50 0).score = 0 := by
  refine ⟨errors_become_neutral_defaults.1 "boom" 3,
    errors_become_neutral_defaults.2.1 "boom", by decide, ?_⟩
  exact errors_become_neutral_defaults.2.2 [] none 100 50 0 (by decide)

/-! ## C5: the MACD value fed to the scorer -/

lemma ilocLast_zipWith_sub : ∀ (as bs : List Rat), as.length = bs.length → as ≠ [] →
    ilocLast (List.zipWith (fun x y => x - y) as bs) = ilocLast as - ilocLast bs
  | [], _, _, hne => absurd rfl hne
  | _ :: _ :: _, [], h, _ => by simp at h
  | [_], [], h, _ => by simp at h
  | [a], [b], _, _ => by simp [ilocLast]
  | [_], _ :: _ :: _, h, _ => by simp at h
  | a :: a2 :: as, b :: b2 :: bs, h, _ => by
    have ih := ilocLast_zipWith_sub (a2 :: as) (b2 :: bs) (by simpa using h) (by simp)
    simpa [List.zipWith, ilocLast] using ih

lemma ewmGo_length (a : Rat) : ∀ (num den : Rat) (xs : List Rat),
    (ewmGo a num den xs).length = xs.length
  | _, _, [] => rfl
  | num, den, x :: rest => by
    simpa [ewmGo] using ewmGo_length a (x + a * num) (1 + a * den) rest

lemma ewmMean_length (span : Nat) (xs : List Rat) : (ewmMean span xs).length = xs.length :=
  ewmGo_length _ 0 0 xs

lemma macdLine_length (prices : List Rat) : (macdLine prices).length = prices.length := by
  simp [macdLine, List.length_zipWith, ewmMean_length]

/-- C5 counterexample: on the two-bar series `[1, 2]` the value fed to the
scorer is the histogram `7/702`, while the difference of the fast and slow
EMAs is `7/312`; the two are different, so the fed MACD value is not the
EMA difference. -/
theorem macd_fed_value_is_not_ema_difference :
    macdFedToScorer [1, 2] = 7 / 702 ∧
    macdAsEmaDifference [1, 2] = 7 / 312 ∧
    macdFedToScorer [1, 2] ≠ macdAsEmaDifference [1, 2] := by
  refine ⟨?_, ?_, ?_⟩ <;>
    norm_num [macdFedToScorer, macdAsEmaDifference, calculate_macd, macdLine,
      ewmMean, ewmGo, ilocLast, List.zipWith]

/-- C5 amended: the MACD value the program feeds into the recommendation
scorer is the last value of the MACD histogram — the difference of the two
EMAs (the MACD line) minus the 9-span EMA of that difference (the signal
line) — rather than the bare EMA difference. -/
theorem macd_fed_value_is_histogram (prices : List Rat) (hne : prices ≠ []) :
    macdFedToScorer prices
      = ilocLast (macdLine prices) - ilocLast (ewmMean 9 (macdLine prices)) := by
  have hlen : (macdLine prices).length = (ewmMean 9 (macdLine prices)).length := by
    rw [ewmMean_length]
  have hne' : macdLine prices ≠ [] := by
    intro h
    apply hne
    have := macdLine_length prices
    rw [h] at this
    exact List.length_eq_zero.mp this.symm
  exact ilocLast_zipWith_sub _ _ hlen hne'

/-- C5 amended witness: concrete evaluation on the series `[1, 2]`. -/
theorem macd_fed_value_is_histogram_witness :
    ([(1 : Rat), 2] ≠ []) ∧
    macdFedToScorer [(1 : Rat), 2]
      = ilocLast (macdLine [(1 : Rat), 2]) - ilocLast (ewmMean 9 (macdLine [(1 : Rat), 2])) :=
  ⟨by simp, macd_fed_value_is_histogram [(1 : Rat), 2] (by simp)⟩

/-! ## C9: the synthetic historical series `create_nse_historical_data`

The `np.random.normal` draws are the explicit `variations` input (one per
bar), the volume jitter draws are `volJitter`, and the date index
`pd.date_range(end=today, periods=30, freq='D')` is modelled by its strictly
increasing day offsets `List.range`. -/

/-- Price loop of `create_nse_historical_data`: for every bar but the last,
clamp `base_price + variation` into the band from 80 percent to 120 percent
of `current_price` and carry it as the new base; the last bar is
`current_price` itself. -/
def nseClosesGo (current_price : Rat) (base_price : Rat) : List Rat → List Rat
  | [] => []
  | [_] => [current_price]
  | v :: v2 :: rest =>
    let new_price := min (max (base_price + v) (current_price * (4/5))) (current_price * (6/5))
    new_price :: nseClosesGo current_price new_price (v2 :: rest)

/-- Synthetic frame built by `create_nse_historical_data`: day offsets of the
date index plus the five columns. -/
structure NseHist where
  dates : List Nat
  Close : List Rat
  Open : List Rat
  High : List Rat
  Low : List Rat
  Volume : List Int

/-- Embedding of `create_nse_historical_data`. `prices` starts from the base
`current_price * 0.95`; Open, High and Low are per-bar multiples of Close and
Volume adds the random jitter to the seed volume. -/
def create_nse_historical_data (current_price : Rat) (volume : Int)
    (variations : List Rat) (volJitter : List Int) : NseHist :=
  let prices := nseClosesGo current_price (current_price * (19/20)) variations
  { dates := List.range variations.length
    Close := prices
    Open := prices.map (fun p => p * (499/500))
    High := prices.map (fun p => p * (203/200))
    Low := prices.map (fun p => p * (197/200))
    Volume := volJitter.map (fun j => volume + j) }

lemma nseClosesGo_length (p : Rat) : ∀ (base : Rat) (vs : List Rat),
    (nseClosesGo p base vs).length = vs.length
  | _, [] => rfl
  | _, [_] => rfl
  | base, v :: v2 :: rest => by
    simpa [nseClosesGo] using nseClosesGo_length p _ (v2 :: rest)

lemma ilocLast_cons (a : Rat) (l : List Rat) (h : l ≠ []) :
    ilocLast (a :: l) = ilocLast l := by
  cases l with
  | nil => exact absurd rfl h
  | cons b t => rfl

lemma nseClosesGo_ne_nil (p base : Rat) (v : Rat) (vs : List Rat) :
    nseClosesGo p base (v :: vs) ≠ [] := by
  intro h
  have := nseClosesGo_length p base (v :: vs)
  rw [h] at this
  simp at this

lemma nseClosesGo_last (p : Rat) : ∀ (base : Rat) (v : Rat) (vs : List Rat),
    ilocLast (nseClosesGo p base (v :: vs)) = p
  | _, _, [] => rfl
  | base, v, v2 :: rest => by
    rw [show nseClosesGo p base (v :: v2 :: rest)
          = min (max (base + v) (p * (4/5))) (p * (6/5))
              :: nseClosesGo p (min (max (base + v) (p * (4/5))) (p * (6/5))) (v2 :: rest)
        from rfl,
      ilocLast_cons _ _ (nseClosesGo_ne_nil p _ v2 rest)]
    exact nseClosesGo_last p _ v2 rest

lemma nseClosesGo_band (p : Rat) (hp : 0 ≤ p) : ∀ (base : Rat) (vs : List Rat),
    ∀ c ∈ (nseClosesGo p base vs).dropLast, p * (4/5) ≤ c ∧ c ≤ p * (6/5)
  | _, [], c, hc => by simp [nseClosesGo] at hc
  | _, [_], c, hc => by simp [nseClosesGo] at hc
  | base, v :: v2 :: rest, c, hc => by
    rw [show nseClosesGo p base (v :: v2 :: rest)
          = min (max (base + v) (p * (4/5))) (p * (6/5))
              :: nseClosesGo p (min (max (base + v) (p * (4/5))) (p * (6/5))) (v2 :: rest)
        from rfl] at hc
    obtain ⟨y, ys, hys⟩ := List.exists_cons_of_ne_nil (nseClosesGo_ne_nil p _ v2 rest)
    rw [hys, List.dropLast_cons₂, ← hys] at hc
    rcases List.mem_cons.mp hc with h | h
    · subst h
      constructor
      · exact le_min (le_trans (by nlinarith) (le_max_right _ _)) (by nlinarith)
      · exact min_le_right _ _
    · exact nseClosesGo_band p hp _ (v2 :: rest) c h

/-- C9: for every strictly positive seed price and every draw of 30 random
variations, the synthetic series has 30 bars, a strictly increasing date
index, a final Close equal to the seed price, and every other Close inside
the clamped band from 80 percent to 120 percent of the seed price. -/
theorem nse_historical_data_shape (p : Rat) (volume : Int)
    (variations : List Rat) (volJitter : List Int)
    (hp : 0 < p) (hlen : variations.length = 30) :
    (create_nse_historical_data p volume variations volJitter).dates.length = 30 ∧
    (create_nse_historical_data p volume variations volJitter).Close.length = 30 ∧
    List.Pairwise (· < ·) (create_nse_historical_data p volume variations volJitter).dates ∧
    ilocLast (create_nse_historical_data p volume variations volJitter).Close = p ∧
    ∀ c ∈ (create_nse_historical_data p volume variations volJitter).Close.dropLast,
      p * (4/5) ≤ c ∧ c ≤ p * (6/5) := by
  obtain ⟨v, vs, hv⟩ : ∃ v vs, variations = v :: vs := by
    cases variations with
    | nil => simp at hlen
    | cons v vs => exact ⟨v, vs, rfl⟩
  refine ⟨by simp [create_nse_historical_data, hlen], ?_, ?_, ?_, ?_⟩
  · simp [create_nse_historical_data, nseClosesGo_length, hlen]
  · exact List.pairwise_lt_range _
  · rw [hv]
    exact nseClosesGo_last p _ v vs
  · exact nseClosesGo_band p (le_of_lt hp) _ variations

/-- C9 witness: concrete evaluation at seed price 100 with 30 zero
variations. -/
theorem nse_historical_data_shape_witness :
    (0 : Rat) < 100 ∧ (List.replicate 30 (0 : Rat)).length = 30 ∧
    (create_nse_historical_data 100 1000 (List.replicate 30 0) []).dates.length = 30 ∧
    (create_nse_historical_data 100 1000 (List.replicate 30 0) []).Close.length = 30 ∧
    List.Pairwise (· < ·) (create_nse_historical_data 100 1000 (List.replicate 30 0) []).dates ∧
    ilocLast (create_nse_historical_data 100 1000 (List.replicate 30 0) []).Close = 100 ∧
    ∀ c ∈ (create_nse_historical_data 100 1000 (List.replicate 30 0) []).Close.dropLast,
      (100 : Rat) * (4/5) ≤ c ∧ c ≤ 100 * (6/5) :=
  ⟨by norm_num, by simp,
    nse_historical_data_shape 100 1000 (List.replicate 30 0) [] (by norm_num) (by simp)⟩

/-! ## C10: `search_stock_symbol` -/

/-- Python `str.lower()` (ASCII case mapping, the range the dictionary keys
use). -/
def pyLower (s : String) : String :=
  String.mk (s.data.map Char.toLower)

/-- Python `str.upper()` (ASCII case mapping). -/
def pyUpper (s : String) : String :=
  String.mk (s.data.map Char.toUpper)

/-- Python `str.strip()`: drop whitespace from both ends. -/
def pyStrip (s : String) : String :=
  String.mk (((s.data.dropWhile Char.isWhitespace).reverse.dropWhile Char.isWhitespace).reverse)

/-- Character-list test: `pat` occurs at the head of the second list. -/
def leadsWith : List Char → List Char → Bool
  | [], _ => true
  | _ :: _, [] => false
  | a :: as, b :: bs => a == b && leadsWith as bs

/-- Character-list test: `pat` occurs somewhere inside the second list. -/
def hasSegment (pat : List Char) : List Char → Bool
  | [] => leadsWith pat []
  | c :: rest => leadsWith pat (c :: rest) || hasSegment pat rest

/-- Python substring test `pat in hay`. -/
def strContains (hay pat : String) : Bool :=
  hasSegment pat.toList hay.toList

/-- Embedding of the `INDIAN_STOCKS` dictionary as an association list in
insertion order: name, symbol, logo URL. -/
def INDIAN_STOCKS : List (String × String × String) := [
  ("tcs", "TCS.NS", "https://logo.clearbit.com/tcs.com"),
  ("tata consultancy services", "TCS.NS", "https://logo.clearbit.com/tcs.com"),
  ("infosys", "INFY.NS", "https://logo.clearbit.com/infosys.com"),
  ("wipro", "WIPRO.NS", "https://logo.clearbit.com/wipro.com"),
  ("reliance", "RELIANCE.NS", "https://logo.clearbit.com/ril.com"),
  ("reliance industries", "RELIANCE.NS", "https://logo.clearbit.com/ril.com"),
  ("hdfc bank", "HDFCBANK.NS", "https://logo.clearbit.com/hdfcbank.com"),
  ("hdfc", "HDFCBANK.NS", "https://logo.clearbit.com/hdfcbank.com"),
  ("icici bank", "ICICIBANK.NS", "https://logo.clearbit.com/icicibank.com"),
  ("icici", "ICICIBANK.NS", "https://logo.clearbit.com/icicibank.com"),
  ("sbi", "SBIN.NS", "https://logo.clearbit.com/sbi.co.in"),
  ("state bank of india", "SBIN.NS", "https://logo.clearbit.com/sbi.co.in"),
  ("bharti airtel", "BHARTIARTL.NS", "https://logo.clearbit.com/airtel.in"),
  ("airtel", "BHARTIARTL.NS", "https://logo.clearbit.com/airtel.in"),
  ("itc", "ITC.NS", "https://logo.clearbit.com/itcportal.com"),
  ("hindustan unilever", "HINDUNILVR.NS", "https://logo.clearbit.com/hul.co.in"),
  ("hul", "HINDUNILVR.NS", "https://logo.clearbit.com/hul.co.in"),
  ("bajaj finance", "BAJFINANCE.NS", "https://logo.clearbit.com/bajajfinserv.in"),
  ("bajaj", "BAJFINANCE.NS", "https://logo.clearbit.com/bajajfinserv.in"),
  ("maruti suzuki", "MARUTI.NS", "https://logo.clearbit.com/marutisuzuki.com"),
  ("maruti", "MARUTI.NS", "https://logo.clearbit.com/marutisuzuki.com"),
  ("asian paints", "ASIANPAINT.NS", "https://logo.clearbit.com/asianpaints.com"),
  ("larsen", "LT.NS", "https://logo.clearbit.com/larsentoubro.com"),
  ("l&t", "LT.NS", "https://logo.clearbit.com/larsentoubro.com"),
  ("axis bank", "AXISBANK.NS", "https://logo.clearbit.com/axisbank.com"),
  ("axis", "AXISBANK.NS", "https://logo.clearbit.com/axisbank.com"),
  ("kotak bank", "KOTAKBANK.NS", "https://logo.clearbit.com/kotak.com"),
  ("kotak", "KOTAKBANK.NS", "https://logo.clearbit.com/kotak.com"),
  ("sun pharma", "SUNPHARMA.NS", "https://logo.clearbit.com/sunpharma.com"),
  ("titan", "TITAN.NS", "https://logo.clearbit.com/titan.co.in"),
  ("nestle", "NESTLEIND.NS", "https://logo.clearbit.com/nestle.in"),
  ("ongc", "ONGC.NS", "https://logo.clearbit.com/ongcindia.com"),
  ("ntpc", "NTPC.NS", "https://logo.clearbit.com/ntpc.co.in"),
  ("powergrid", "POWERGRID.NS", "https://logo.clearbit.com/powergridindia.com"),
  ("coal india", "COALINDIA.NS", "https://logo.clearbit.com/coalindia.in"),
  ("dr reddy", "DRREDDY.NS", "https://logo.clearbit.com/drreddys.com"),
  ("tech mahindra", "TECHM.NS", "https://logo.clearbit.com/techmahindra.com"),
  ("hcl tech", "HCLTECH.NS", "https://logo.clearbit.com/hcltech.com"),
  ("hcl", "HCLTECH.NS", "https://logo.clearbit.com/hcltech.com"),
  ("adani", "ADANIENT.NS", "https://logo.clearbit.com/adani.com"),
  ("tata steel", "TATASTEEL.NS", "https://logo.clearbit.com/tatasteel.com"),
  ("jsw steel", "JSWSTEEL.NS", "https://logo.clearbit.com/jsw.in"),
  ("ultratech cement", "ULTRACEMCO.NS", "https://logo.clearbit.com/ultratechcement.com"),
  ("ultratech", "ULTRACEMCO.NS", "https://logo.clearbit.com/ultratechcement.com"),
  ("britannia", "BRITANNIA.NS", "https://logo.clearbit.com/britannia.co.in")]

/-- Embedding of `search_stock_symbol`.  `closeMatches` is
`difflib.get_close_matches(user_input, INDIAN_STOCKS.keys(), n=1, cutoff=0.6)`,
an external fuzzy matcher over the dictionary keys, passed in as a function.
The `none` result models the `KeyError` that would arise if the fuzzy matcher
returned a string that is not a dictionary key (difflib never does). -/
def search_stock_symbol (closeMatches : String → List String)
    (user_input : String) : Option (String × String × String) :=
  let u := pyStrip (pyLower user_input)
  match INDIAN_STOCKS.find? (fun e => e.1 == u) with
  | some e => some (e.2.1, u, e.2.2)
  | none =>
    match INDIAN_STOCKS.find? (fun e => strContains e.1 u || strContains u e.1) with
    | some e => some (e.2.1, e.1, e.2.2)
    | none =>
      match closeMatches u with
      | best :: _ =>
        match INDIAN_STOCKS.find? (fun e => e.1 == best) with
        | some e => some (e.2.1, best, e.2.2)
        | none => none
      | [] => some (pyUpper u ++ ".NS", u, "https://via.placeholder.com/32x32?text=?")

/-- C10: `search_stock_symbol` always returns a triple whenever the fuzzy
matcher only proposes dictionary keys (as difflib does), and when the
normalized input matches no stock name exactly, by substring containment in
either direction, or by fuzzy match, it returns the uppercased normalized
input with '.NS' appended together with the placeholder logo URL. -/
theorem search_stock_symbol_total_and_fallback :
    (∀ (cm : String → List String) (input : String),
      (∀ m ∈ cm (pyStrip (pyLower input)), ∃ e ∈ INDIAN_STOCKS, e.1 = m) →
      (search_stock_symbol cm input).isSome = true) ∧
    (∀ (cm : String → List String) (input : String),
      (∀ e ∈ INDIAN_STOCKS, e.1 ≠ pyStrip (pyLower input)) →
      (∀ e ∈ INDIAN_STOCKS, strContains e.1 (pyStrip (pyLower input)) = false ∧
        strContains (pyStrip (pyLower input)) e.1 = false) →
      cm (pyStrip (pyLower input)) = [] →
      search_stock_symbol cm input
        = some (pyUpper (pyStrip (pyLower input)) ++ ".NS", pyStrip (pyLower input),
            "https://via.placeholder.com/32x32?text=?")) := by
  constructor
  · intro cm input hkeys
    unfold search_stock_symbol
    cases h1 : INDIAN_STOCKS.find? (fun e => e.1 == pyStrip (pyLower input)) with
    | some e => simp [h1]
    | none =>
      cases h2 : INDIAN_STOCKS.find?
          (fun e => strContains e.1 (pyStrip (pyLower input))
            || strContains (pyStrip (pyLower input)) e.1) with
      | some e => simp [h1, h2]
      | none =>
        cases h3 : cm (pyStrip (pyLower input)) with
        | nil => simp [h1, h2, h3]
        | cons best rest =>
          obtain ⟨e, he, heq⟩ := hkeys best (h3 ▸ List.mem_cons_self best rest)
          have : (INDIAN_STOCKS.find? (fun e => e.1 == best)).isSome = true := by
            rw [List.find?_isSome]
            exact ⟨e, he, by simp [heq]⟩
          obtain ⟨e', he'⟩ := Option.isSome_iff_exists.mp this
          simp [h1, h2, h3, he']
  · intro cm input hexact hsub hcm
    unfold search_stock_symbol
    have h1 : INDIAN_STOCKS.find? (fun e => e.1 == pyStrip (pyLower input)) = none := by
      rw [List.find?_eq_none]
      intro e he
      simpa using hexact e he
    have h2 : INDIAN_STOCKS.find?
        (fun e => strContains e.1 (pyStrip (pyLower input))
          || strContains (pyStrip (pyLower input)) e.1) = none := by
      rw [List.find?_eq_none]
      intro e he
      simp [(hsub e he).1, (hsub e he).2]
    simp [h1, h2, hcm]

/-- C10 witness: the input 'zzz' matches nothing, so the fallback triple is
returned; and with a key-respecting fuzzy matcher the function is total. -/
theorem search_stock_symbol_total_and_fallback_witness :
    ((∀ m ∈ (fun _ : String => ([] : List String)) (pyStrip (pyLower "zzz")),
        ∃ e ∈ INDIAN_STOCKS, e.1 = m) ∧
      (search_stock_symbol (fun _ => []) "zzz").isSome = true) ∧
    ((∀ e ∈ INDIAN_STOCKS, e.1 ≠ pyStrip (pyLower "zzz")) ∧
      (∀ e ∈ INDIAN_STOCKS, strContains e.1 (pyStrip (pyLower "zzz")) = false ∧
        strContains (pyStrip (pyLower "zzz")) e.1 = false) ∧
      search_stock_symbol (fun _ => []) "zzz"
        = some (pyUpper (pyStrip (pyLower "zzz")) ++ ".NS", pyStrip (pyLower "zzz"),
            "https://via.placeholder.com/32x32?text=?")) := by
  refine ⟨⟨by simp, search_stock_symbol_total_and_fallback.1 _ "zzz" (by simp)⟩,
    ⟨by decide, by decide, search_stock_symbol_total_and_fallback.2 _ "zzz"
      (by decide) (by decide) rfl⟩⟩

/-! ## C4: the cache tier of the acquisition chain -/

/-- Cache validity window in seconds. -/
def CACHE_DURATION : Rat := 300

/-- Shape of the pickled dictionary `save_to_cache` writes: either the
serialized 4-tuple form (which `load_from_cache` always reconstructs into a
truthy tuple) or the fallback form `{'data': ...}`, whose stored value can be
falsy — `save_to_cache(symbol, result)` is reachable with `result = None`
(e.g. when `create_nse_result` fails), modelled as `fallbackForm none`. -/
inductive CachePayload (α : Type)
  | tupleForm (payload : α)
  | fallbackForm (data : Option α)

/-- Cache entry on disk: write timestamp plus stored payload. -/
structure CacheEntry (α : Type) where
  timestamp : Rat
  stored : CachePayload α

/-- Embedding of `load_from_cache`: if a cache file exists and
`time.time() - timestamp < CACHE_DURATION`, reconstruct and return the
stored data (which is `None` for a stored falsy fallback payload); otherwise
return `None`. -/
def load_from_cache {α : Type} (now : Rat) (entry : Option (CacheEntry α)) : Option α :=
  match entry with
  | none => none
  | some e =>
    if now - e.timestamp < CACHE_DURATION then
      match e.stored with
      | .tupleForm p => some p
      | .fallbackForm d => d
    else none

/-- Cache-check prefix of `get_stock_data_with_retry`: `if cached_data:
return cached_data` before any outbound work.  The rest of the tiered chain
(real-price fetch, alternate source, synthetic data) is abstracted as `rest`,
which reports its result together with the number of outbound fetches it
performed; a cache hit performs zero fetches. -/
def get_stock_data_with_retry {α : Type} (now : Rat) (entry : Option (CacheEntry α))
    (rest : Unit → α × Nat) : α × Nat :=
  match load_from_cache now entry with
  | some d => (d, 0)
  | none => rest ()

/-- C4 counterexample: a cache entry written 0 seconds ago (well within the
300-second window) whose stored payload is `None` does not short-circuit the
chain — the function proceeds to fetch (here the rest of the chain performs
1 fetch), contradicting "for every symbol whose cache entry was written less
than 300 seconds ago, the cached data is returned without any fetch". -/
theorem cache_fresh_entry_refetch_counterexample :
    ((0 : Rat) - 0 < CACHE_DURATION) ∧
    get_stock_data_with_retry (α := Nat) 0 (some ⟨0, .fallbackForm none⟩)
        (fun _ => (42, 1)) = (42, 1) := by
  have h : (0 : Rat) - 0 < CACHE_DURATION := by norm_num [CACHE_DURATION]
  exact ⟨h, by simp [get_stock_data_with_retry, load_from_cache, h]⟩

/-- C4 amended: a cache entry younger than 300 seconds that holds non-empty
data is returned as-is with zero outbound fetches, and `load_from_cache`
never returns data from an entry 300 or more seconds old. -/
theorem cache_fresh_hit_and_expiry {α : Type} :
    (∀ (now ts : Rat) (p : α) (rest : Unit → α × Nat), now - ts < CACHE_DURATION →
      get_stock_data_with_retry now (some ⟨ts, .tupleForm p⟩) rest = (p, 0) ∧
      get_stock_data_with_retry now (some ⟨ts, .fallbackForm (some p)⟩) rest = (p, 0)) ∧
    (∀ (now : Rat) (e : CacheEntry α), CACHE_DURATION ≤ now - e.timestamp →
      load_from_cache now (some e) = none) := by
  constructor
  · intro now ts p rest h
    constructor <;> simp [get_stock_data_with_retry, load_from_cache, h]
  · intro now e h
    simp only [load_from_cache, if_neg (not_lt.mpr h)]

/-- C4 amended witness: concrete fresh hit at age 10 seconds and concrete
expiry at age exactly 300 seconds. -/
theorem cache_fresh_hit_and_expiry_witness :
    ((10 : Rat) - 0 < CACHE_DURATION) ∧
    get_stock_data_with_retry (α := Nat) 10 (some ⟨0, .tupleForm 7⟩) (fun _ => (42, 1)) = (7, 0) ∧
    get_stock_data_with_retry (α := Nat) 10 (some ⟨0, .fallbackForm (some 7)⟩)
      (fun _ => (42, 1)) = (7, 0) ∧
    (CACHE_DURATION ≤ (300 : Rat) - 0) ∧
    load_from_cache (α := Nat) 300 (some ⟨0, .tupleForm 7⟩) = none := by
  have h1 : (10 : Rat) - 0 < CACHE_DURATION := by norm_num [CACHE_DURATION]
  have h2 : CACHE_DURATION ≤ (300 : Rat) - 0 := by norm_num [CACHE_DURATION]
  obtain ⟨hda, hdb⟩ := (cache_fresh_hit_and_expiry (α := Nat)).1 10 0 7 (fun _ => (42, 1)) h1
  exact ⟨h1, hda, hdb, h2, (cache_fresh_hit_and_expiry (α := Nat)).2 300 ⟨0, .tupleForm 7⟩ h2⟩

/-! ## C6: retries in `get_stock_data_fallback_strategy` -/

/-- Outcome of one fetch attempt inside the retry loop: either
`stock.history(...)` and `stock.info` succeeded yielding a (possibly empty)
frame, or an exception with the given message was raised. -/
inductive AttemptOutcome
  | ok (hist : List Rat)
  | exn (msg : String)

/-- Error-message fragments that make the strategy switch to fallback mode
immediately. -/
def yahooErrorIndicators : List String :=
  ["429", "Too Many Requests", "Expecting value: line 1 column 1",
   "No data found", "symbol may be delisted", "JSONDecodeError"]

/-- Test `any(indicator in error_str for indicator in [...])`. -/
def matchesYahooIssue (msg : String) : Bool :=
  yahooErrorIndicators.any (fun ind => strContains msg ind)

/-- Return value of the strategy. -/
inductive FallbackResult
  | data (hist : List Rat)
  | fallbackMode
  deriving DecidableEq, Repr

/-- Observable trace of one call to the strategy: the returned value, the
number of outbound fetch attempts made, and the number of 2-second
inter-attempt sleeps taken. -/
structure StratTrace where
  result : FallbackResult
  fetches : Nat
  retrySleeps : Nat
  deriving DecidableEq, Repr

/-- Loop body of `get_stock_data_fallback_strategy`: `attemptsLeft` is how
many iterations of `for attempt in range(max_retries)` remain and `outs`
supplies each attempt's outcome.  A nonempty frame returns immediately; an
empty frame falls through to the next iteration without sleeping; an
exception matching a known Yahoo-Finance issue (or on the final attempt)
returns fallback mode at once, and otherwise `time.sleep(2)` runs before the
next attempt. -/
def fallbackGo : Nat → List AttemptOutcome → StratTrace
  | _, [] => ⟨.fallbackMode, 0, 0⟩
  | 0, _ => ⟨.fallbackMode, 0, 0⟩
  | attemptsLeft + 1, o :: rest =>
    match o with
    | .ok hist =>
      if hist.isEmpty then
        let t := fallbackGo attemptsLeft rest
        ⟨t.result, t.fetches + 1, t.retrySleeps⟩
      else ⟨.data hist, 1, 0⟩
    | .exn msg =>
      if matchesYahooIssue msg then ⟨.fallbackMode, 1, 0⟩
      else if attemptsLeft = 0 then ⟨.fallbackMode, 1, 0⟩
      else
        let t := fallbackGo attemptsLeft rest
        ⟨t.result, t.fetches + 1, t.retrySleeps + 1⟩

/-- Embedding of `get_stock_data_fallback_strategy` with its default
`max_retries = 2`. -/
def get_stock_data_fallback_strategy (outcomes : List AttemptOutcome) : StratTrace :=
  fallbackGo 2 outcomes

/-- C6 counterexample: when the first attempt raises a generic error and the
second succeeds, the strategy makes 2 outbound fetch attempts with one
2-second inter-attempt sleep — the claim's "at most once per request, with no
additional retry attempts or inter-attempt sleeps" is false. -/
theorem fallback_strategy_retries_counterexample :
    get_stock_data_fallback_strategy [.exn "boom", .ok [1]]
      = ⟨.data [1], 2, 1⟩ ∧
    ¬((get_stock_data_fallback_strategy [.exn "boom", .ok [1]]).fetches ≤ 1 ∧
      (get_stock_data_fallback_strategy [.exn "boom", .ok [1]]).retrySleeps = 0) := by
  constructor
  · rfl
  · intro ⟨h1, _⟩
    simp [get_stock_data_fallback_strategy, fallbackGo, matchesYahooIssue,
      yahooErrorIndicators, strContains, hasSegment, leadsWith] at h1

lemma fallbackGo_bounds : ∀ (n : Nat) (outs : List AttemptOutcome),
    (fallbackGo n outs).fetches ≤ n ∧ (fallbackGo n outs).retrySleeps ≤ n - 1
  | _, [] => by simp [fallbackGo]
  | 0, _ :: _ => by simp [fallbackGo]
  | n + 1, o :: rest => by
    have ih := fallbackGo_bounds n rest
    cases o with
    | ok hist =>
      by_cases h : hist.isEmpty <;> simp [fallbackGo, h] <;> omega
    | exn msg =>
      by_cases h : matchesYahooIssue msg
      · simp [fallbackGo, h]
      · by_cases h0 : n = 0 <;> simp [fallbackGo, h, h0] <;> omega

/-- C6 amended: the strategy retries up to `max_retries = 2` fetch attempts
per request with at most one 2-second inter-attempt sleep, and an exception
carrying a known Yahoo-Finance error signature aborts to fallback mode after
a single attempt with no sleep. -/
theorem fallback_strategy_bounded_retries (outcomes : List AttemptOutcome) :
    (get_stock_data_fallback_strategy outcomes).fetches ≤ 2 ∧
    (get_stock_data_fallback_strategy outcomes).retrySleeps ≤ 1 ∧
    (∀ (msg : String) (rest : List AttemptOutcome),
      outcomes = .exn msg :: rest → matchesYahooIssue msg = true →
      get_stock_data_fallback_strategy outcomes = ⟨.fallbackMode, 1, 0⟩) := by
  refine ⟨(fallbackGo_bounds 2 outcomes).1, ?_, ?_⟩
  · have := (fallbackGo_bounds 2 outcomes).2
    simp only [get_stock_data_fallback_strategy]
    omega
  · intro msg rest hout hmatch
    subst hout
    simp [get_stock_data_fallback_strategy, fallbackGo, hmatch]

/-- C6 amended witness: a 429 error on the first attempt aborts to fallback
mode with exactly one fetch and no sleep. -/
theorem fallback_strategy_bounded_retries_witness :
    (get_stock_data_fallback_strategy [.exn "429", .ok []]).fetches ≤ 2 ∧
    (get_stock_data_fallback_strategy [.exn "429", .ok []]).retrySleeps ≤ 1 ∧
    get_stock_data_fallback_strategy [.exn "429", .ok []] = ⟨.fallbackMode, 1, 0⟩ := by
  obtain ⟨h1, h2, h3⟩ := fallback_strategy_bounded_retries [.exn "429", .ok []]
  exact ⟨h1, h2, h3 "429" [.ok []] rfl (by decide)⟩

/-! ## C7: the fixed-window rate limiter `rate_limit_yahoo_finance`

The globals `last_request_time['yahoo']` and `request_count['yahoo']` form the
state; `time.time()` is the explicit `now` argument, and a sleep of duration
`d` makes the clock read `now + d` afterwards. -/

/-- Rate-limiter state: the window-start entry of `last_request_time` (absent
before the first call) and the request counter. -/
structure RLState where
  last : Option Rat
  count : Nat
  deriving Repr, DecidableEq

/-- First block of `rate_limit_yahoo_finance`: reset the counter and restart
the window when no window exists or more than 60 seconds have elapsed;
returns the effective window start and counter. -/
def rlWindowReset (s : RLState) (now : Rat) : Rat × Nat :=
  match s.last with
  | none => (now, 0)
  | some t => if now - t > 60 then (now, 0) else (t, s.count)

/-- Embedding of `rate_limit_yahoo_finance`: after the window-reset block,
a counter at or above 5 with remaining window time sleeps for the remainder
(`wait = 60 - elapsed`), resets the counter and restarts the window at the
post-sleep clock; the admitted request then increments the counter.  The
second component reports the sleep duration, `none` when no sleep happened. -/
def rate_limit_yahoo_finance (s : RLState) (now : Rat) : RLState × Option Rat :=
  let wc := rlWindowReset s now
  if wc.2 ≥ 5 then
    if 60 - (now - wc.1) > 0 then
      (⟨some (now + (60 - (now - wc.1))), 1⟩, some (60 - (now - wc.1)))
    else (⟨some wc.1, wc.2 + 1⟩, none)
  else (⟨some wc.1, wc.2 + 1⟩, none)

/-- Trace of successive calls: each list element is a nonnegative gap between
the previous post-sleep clock and the next call; the trace records each
call's time and whether it slept. -/
def rlRun (s : RLState) (tprev : Rat) : List Rat → List (Rat × Bool)
  | [] => []
  | δ :: rest =>
    let t := tprev + δ
    let p := rate_limit_yahoo_finance s t
    (t, p.2.isSome) :: rlRun p.1 (t + p.2.getD 0) rest

/-- Number of requests admitted without a sleep whose call time lies in the
window starting at `w` (half-open, 60 seconds long). -/
def noSleepAdmissionsIn (w : Rat) : List (Rat × Bool) → Nat
  | [] => 0
  | (t, slept) :: tr =>
    (if slept = false ∧ w ≤ t ∧ t < w + 60 then 1 else 0) + noSleepAdmissionsIn w tr

lemma rate_limit_sleep_nonneg (s : RLState) (now : Rat) :
    0 ≤ (rate_limit_yahoo_finance s now).2.getD 0 := by
  unfold rate_limit_yahoo_finance
  by_cases h1 : (rlWindowReset s now).2 ≥ 5
  · by_cases h2 : 60 - (now - (rlWindowReset s now).1) > 0
    · rw [if_pos h1, if_pos h2]
      simp only [Option.getD_some]
      linarith
    · rw [if_pos h1, if_neg h2]
      simp
  · rw [if_neg h1]
    simp

lemma rlRun_cons (s : RLState) (tprev δ : Rat) (rest : List Rat) :
    rlRun s tprev (δ :: rest)
      = (tprev + δ, (rate_limit_yahoo_finance s (tprev + δ)).2.isSome)
          :: rlRun (rate_limit_yahoo_finance s (tprev + δ)).1
              (tprev + δ + (rate_limit_yahoo_finance s (tprev + δ)).2.getD 0) rest := rfl

lemma rlRun_off_window : ∀ (gaps : List Rat) (s : RLState) (tprev w : Rat),
    (∀ δ ∈ gaps, 0 ≤ δ) → w + 60 ≤ tprev →
    noSleepAdmissionsIn w (rlRun s tprev gaps) = 0
  | [], _, _, _, _, _ => rfl
  | δ :: rest, s, tprev, w, hg, hw => by
    have hδ : 0 ≤ δ := hg δ (List.mem_cons_self δ rest)
    have ht : ¬ (tprev + δ < w + 60) := by push_neg; linarith
    have hsleep := rate_limit_sleep_nonneg s (tprev + δ)
    have ih := rlRun_off_window rest (rate_limit_yahoo_finance s (tprev + δ)).1
      (tprev + δ + (rate_limit_yahoo_finance s (tprev + δ)).2.getD 0) w
      (fun x hx => hg x (List.mem_cons_of_mem δ hx)) (by linarith)
    rw [rlRun_cons, noSleepAdmissionsIn, ih, if_neg (by tauto)]

lemma rlRun_window_bound : ∀ (gaps : List Rat) (c : Nat) (tprev w : Rat),
    (∀ δ ∈ gaps, 0 ≤ δ) → w ≤ tprev →
    noSleepAdmissionsIn w (rlRun ⟨some w, c⟩ tprev gaps) + min c 5 ≤ 5
  | [], c, tprev, w, _, _ => by
    simp [rlRun, noSleepAdmissionsIn, min_le_right]
  | δ :: rest, c, tprev, w, hg, hw => by
    have hδ : 0 ≤ δ := hg δ (List.mem_cons_self δ rest)
    have hgrest : ∀ x ∈ rest, (0 : Rat) ≤ x := fun x hx => hg x (List.mem_cons_of_mem δ hx)
    have hwt : w ≤ tprev + δ := by linarith
    have hunfold : rlWindowReset ⟨some w, c⟩ (tprev + δ)
        = if tprev + δ - w > 60 then (tprev + δ, 0) else (w, c) := rfl
    by_cases hA : tprev + δ - w > 60
    · -- window expired: counter reset, window restarts at the call time,
      -- the call itself is outside the old window, and every later call is too
      have hreset : rlWindowReset ⟨some w, c⟩ (tprev + δ) = (tprev + δ, 0) := by
        rw [hunfold, if_pos hA]
      have hstep : rate_limit_yahoo_finance ⟨some w, c⟩ (tprev + δ)
          = (⟨some (tprev + δ), 1⟩, none) := by
        unfold rate_limit_yahoo_finance
        rw [hreset]
        norm_num
      have hstep1 : (rate_limit_yahoo_finance ⟨some w, c⟩ (tprev + δ)).1
          = ⟨some (tprev + δ), 1⟩ := by rw [hstep]
      have hstep2 : (rate_limit_yahoo_finance ⟨some w, c⟩ (tprev + δ)).2
          = none := by rw [hstep]
      have hoff := rlRun_off_window rest ⟨some (tprev + δ), 1⟩ (tprev + δ) w hgrest
        (by linarith)
      rw [rlRun_cons, hstep1, hstep2, noSleepAdmissionsIn]
      rw [show ((none : Option Rat).getD 0) = 0 from rfl, add_zero, hoff,
        if_neg (fun h => absurd h.2.2 (by push_neg; linarith))]
      omega
    · have hreset : rlWindowReset ⟨some w, c⟩ (tprev + δ) = (w, c) := by
        rw [hunfold, if_neg hA]
      by_cases hc : c ≥ 5
      · by_cases hwait : 60 - (tprev + δ - w) > 0
        · -- at the threshold with window time remaining: sleep to the window
          -- edge; the slept call is not a no-sleep admission and later calls
          -- start at or after the window edge
          have hstep : rate_limit_yahoo_finance ⟨some w, c⟩ (tprev + δ)
              = (⟨some (tprev + δ + (60 - (tprev + δ - w))), 1⟩,
                  some (60 - (tprev + δ - w))) := by
            unfold rate_limit_yahoo_finance
            rw [hreset, if_pos hc, if_pos hwait]
          have hstep1 : (rate_limit_yahoo_finance ⟨some w, c⟩ (tprev + δ)).1
              = ⟨some (tprev + δ + (60 - (tprev + δ - w))), 1⟩ := by rw [hstep]
          have hstep2 : (rate_limit_yahoo_finance ⟨some w, c⟩ (tprev + δ)).2
              = some (60 - (tprev + δ - w)) := by rw [hstep]
          have hoff := rlRun_off_window rest
            ⟨some (tprev + δ + (60 - (tprev + δ - w))), 1⟩
            (tprev + δ + (60 - (tprev + δ - w))) w hgrest (by linarith)
          rw [rlRun_cons, hstep1, hstep2, noSleepAdmissionsIn]
          rw [show ((some (60 - (tprev + δ - w)) : Option Rat).getD 0)
                = 60 - (tprev + δ - w) from rfl, hoff,
            if_neg (fun h => by simpa using h.1)]
          omega
        · -- exact window boundary: admitted without sleep, but at time w + 60,
          -- outside the half-open window; later calls are past the edge too
          have hedge : tprev + δ = w + 60 := by push_neg at hA hwait; linarith
          have hstep : rate_limit_yahoo_finance ⟨some w, c⟩ (tprev + δ)
              = (⟨some w, c + 1⟩, none) := by
            unfold rate_limit_yahoo_finance
            rw [hreset, if_pos hc, if_neg hwait]
          have hstep1 : (rate_limit_yahoo_finance ⟨some w, c⟩ (tprev + δ)).1
              = ⟨some w, c + 1⟩ := by rw [hstep]
          have hstep2 : (rate_limit_yahoo_finance ⟨some w, c⟩ (tprev + δ)).2
              = none := by rw [hstep]
          have hbound := rlRun_window_bound rest (c + 1) (tprev + δ) w hgrest hwt
          rw [rlRun_cons, hstep1, hstep2, noSleepAdmissionsIn]
          rw [show ((none : Option Rat).getD 0) = 0 from rfl, add_zero,
            if_neg (fun h => absurd h.2.2 (by rw [hedge]; exact lt_irrefl _))]
          omega
      · -- below the threshold: admitted without sleep, counter incremented,
        -- window unchanged
        have hstep : rate_limit_yahoo_finance ⟨some w, c⟩ (tprev + δ)
            = (⟨some w, c + 1⟩, none) := by
          unfold rate_limit_yahoo_finance
          rw [hreset, if_neg hc]
        have hstep1 : (rate_limit_yahoo_finance ⟨some w, c⟩ (tprev + δ)).1
            = ⟨some w, c + 1⟩ := by rw [hstep]
        have hstep2 : (rate_limit_yahoo_finance ⟨some w, c⟩ (tprev + δ)).2
            = none := by rw [hstep]
        have hbound := rlRun_window_bound rest (c + 1) (tprev + δ) w hgrest hwt
        rw [rlRun_cons, hstep1, hstep2, noSleepAdmissionsIn]
        rw [show ((none : Option Rat).getD 0) = 0 from rfl, add_zero]
        by_cases hin : tprev + δ < w + 60
        · rw [if_pos ⟨rfl, hwt, hin⟩]
          omega
        · rw [if_neg (fun h => absurd h.2.2 hin)]
          omega

/-- C7 counterexample: at the exact window boundary — counter already at the
threshold 5 and exactly 60 seconds elapsed since the window start — the
request is admitted with no sleep and the counter is not reset (it becomes 6,
not 1), so "when the counter has reached the threshold it sleeps for the
remainder of the window and resets the counter before admitting" is false as
stated. -/
theorem rate_limiter_boundary_counterexample :
    (rlWindowReset ⟨some 0, 5⟩ 60).2 ≥ 5 ∧
    rate_limit_yahoo_finance ⟨some 0, 5⟩ 60 = (⟨some 0, 6⟩, none) ∧
    (rate_limit_yahoo_finance ⟨some 0, 5⟩ 60).2 = none ∧
    (rate_limit_yahoo_finance ⟨some 0, 5⟩ 60).1.count ≠ 1 := by
  have h1 : rlWindowReset ⟨some 0, 5⟩ 60 = (0, 5) := by
    rw [show rlWindowReset ⟨some 0, 5⟩ 60
        = if (60 : Rat) - 0 > 60 then ((60 : Rat), 0) else (0, 5) from rfl]
    norm_num
  have h2 : rate_limit_yahoo_finance ⟨some 0, 5⟩ 60 = (⟨some 0, 6⟩, none) := by
    unfold rate_limit_yahoo_finance
    rw [h1]
    norm_num
  refine ⟨by rw [h1], h2, by rw [h2], by rw [h2]; decide⟩

/-- C7 amended: the limiter resets its counter whenever more than 60 seconds
have elapsed since the window start; when the counter has reached the
threshold 5 with time remaining in the window it sleeps for the remainder
and resets the counter before admitting the request (at the exact boundary
the request is admitted with neither sleep nor reset); consequently, within
any half-open 60-second window at most 5 requests are admitted without a
sleep. -/
theorem rate_limiter_amended :
    (∀ (s : RLState) (now t : Rat), s.last = some t → now - t > 60 →
      rlWindowReset s now = (now, 0)) ∧
    (∀ (s : RLState) (now : Rat), (rlWindowReset s now).2 ≥ 5 →
      60 - (now - (rlWindowReset s now).1) > 0 →
      rate_limit_yahoo_finance s now
        = (⟨some (now + (60 - (now - (rlWindowReset s now).1))), 1⟩,
            some (60 - (now - (rlWindowReset s now).1)))) ∧
    (∀ (w : Rat) (gaps : List Rat), (∀ δ ∈ gaps, 0 ≤ δ) →
      noSleepAdmissionsIn w (rlRun ⟨some w, 0⟩ w gaps) ≤ 5) := by
  refine ⟨?_, ?_, ?_⟩
  · intro s now t hlast h
    cases s with
    | mk l c =>
      simp only at hlast
      subst hlast
      rw [show rlWindowReset ⟨some t, c⟩ now
          = if now - t > 60 then (now, 0) else (t, c) from rfl, if_pos h]
  · intro s now h1 h2
    unfold rate_limit_yahoo_finance
    rw [if_pos h1, if_pos h2]
  · intro w gaps hg
    have := rlRun_window_bound gaps 0 w w hg (le_refl w)
    omega

/-- C7 amended witness: concrete reset after 100 seconds, concrete sleep of
30 seconds when the counter hits 5 mid-window, and a concrete two-call trace
with at most 5 no-sleep admissions. -/
theorem rate_limiter_amended_witness :
    ((⟨some 0, 3⟩ : RLState).last = some 0 ∧ (100 : Rat) - 0 > 60 ∧
      rlWindowReset ⟨some 0, 3⟩ 100 = (100, 0)) ∧
    ((rlWindowReset ⟨some 0, 5⟩ 30).2 ≥ 5 ∧
      60 - ((30 : Rat) - (rlWindowReset ⟨some 0, 5⟩ 30).1) > 0 ∧
      rate_limit_yahoo_finance ⟨some 0, 5⟩ 30
        = (⟨some ((30 : Rat) + (60 - ((30 : Rat) - (rlWindowReset ⟨some 0, 5⟩ 30).1))), 1⟩,
            some (60 - ((30 : Rat) - (rlWindowReset ⟨some 0, 5⟩ 30).1)))) ∧
    ((∀ δ ∈ [(1 : Rat), 1], 0 ≤ δ) ∧
      noSleepAdmissionsIn 0 (rlRun ⟨some 0, 0⟩ 0 [(1 : Rat), 1]) ≤ 5) := by
  have hr : rlWindowReset ⟨some 0, 5⟩ 30 = (0, 5) := by
    rw [show rlWindowReset ⟨some 0, 5⟩ 30
        = if (30 : Rat) - 0 > 60 then ((30 : Rat), 0) else (0, 5) from rfl]
    norm_num
  have hb1 : (rlWindowReset ⟨some 0, 5⟩ 30).2 ≥ 5 := by rw [hr]
  have hb2 : 60 - ((30 : Rat) - (rlWindowReset ⟨some 0, 5⟩ 30).1) > 0 := by
    rw [hr]
    norm_num
  have hg : ∀ δ ∈ [(1 : Rat), 1], 0 ≤ δ := by norm_num
  exact ⟨⟨rfl, by norm_num, rate_limiter_amended.1 ⟨some 0, 3⟩ 100 0 rfl (by norm_num)⟩,
    ⟨hb1, hb2, rate_limiter_amended.2.1 ⟨some 0, 5⟩ 30 hb1 hb2⟩,
    ⟨hg, rate_limiter_amended.2.2 0 [(1 : Rat), 1] hg⟩⟩

/-! ## C8: `fetch_real_current_price`

The three yfinance access methods (`ticker.info`, `ticker.history`,
`ticker.fast_info`) are external calls whose outcomes are explicit inputs;
Python truthiness distinguishes an absent value (`none`) from a present zero
(`some 0`). -/

/-- Python truthiness of a possibly-absent number: `None` and `0` are falsy. -/
def truthyR : Option Rat → Bool
  | none => false
  | some v => decide (v ≠ 0)

/-- Python truthiness of a possibly-absent string: `None` and `''` are falsy. -/
def truthyS : Option String → Bool
  | none => false
  | some s => decide (s ≠ "")

/-- Python `a or b` on possibly-absent numbers. -/
def pyOrR (a b : Option Rat) : Option Rat :=
  if truthyR a then a else b

/-- Python `a or b` on possibly-absent strings. -/
def pyOrS (a b : Option String) : Option String :=
  if truthyS a then a else b

/-- Python `s.endswith(suf)`. -/
def pyEndsWith (s suf : String) : Bool :=
  leadsWith suf.data.reverse s.data.reverse

/-- Fields `fetch_real_current_price` reads from `ticker.info`. -/
structure InfoResp where
  currentPrice : Option Rat
  regularMarketPrice : Option Rat
  longName : Option String
  shortName : Option String
  previousClose : Option Rat

/-- Fields `fetch_real_current_price` reads from `ticker.fast_info`. -/
structure FastResp where
  lastPrice : Option Rat
  previousClose : Option Rat

/-- Dictionary `fetch_real_current_price` returns on success. -/
structure RealPriceResult where
  current_price : Rat
  company_name : Option String
  previous_close : Rat
  symbol : String
  is_real : Bool
  deriving Repr

/-- `data['Close'].iloc[-2]`: last element of all but the last row. -/
def ilocPenult (l : List Rat) : Rat :=
  ilocLast l.dropLast

/-- Method 1 of `fetch_real_current_price`: read current price, company name
and previous close from `ticker.info`; on exception all three stay `None`. -/
def fetchMethod1 (infoRes : Except String InfoResp) :
    Option Rat × Option String × Option Rat :=
  match infoRes with
  | .ok info =>
    (pyOrR info.currentPrice info.regularMarketPrice,
     pyOrS info.longName info.shortName,
     info.previousClose)
  | .error _ => (none, none, none)

/-- Method 2: only `if current_price is None`, read a 2-day history; a
nonempty frame overwrites both the current price (last close) and the
previous close (second-to-last close, or 0.995 of the last close when only
one row exists). -/
def fetchMethod2 (histRes : Except String (List Rat)) (cp pc : Option Rat) :
    Option Rat × Option Rat :=
  if cp = none then
    match histRes with
    | .ok closes =>
      if closes.isEmpty then (cp, pc)
      else
        (some (ilocLast closes),
         if closes.length > 1 then some (ilocPenult closes)
         else some (ilocLast closes * (199/200)))
    | .error _ => (cp, pc)
  else (cp, pc)

/-- Method 3: only if the current price is still `None`, overwrite both
values from `ticker.fast_info`. -/
def fetchMethod3 (fastRes : Except String FastResp) (cp pc : Option Rat) :
    Option Rat × Option Rat :=
  if cp = none then
    match fastRes with
    | .ok fast => (fast.lastPrice, fast.previousClose)
    | .error _ => (cp, pc)
  else (cp, pc)

/-- Final guard: `if current_price and current_price > 0` builds the result,
substituting 0.995 of the current price when the previous close is falsy;
otherwise the function returns `None`. -/
def fetchFinalize (sym : String) (name : Option String) (cp pc : Option Rat) :
    Option RealPriceResult :=
  match cp with
  | some v =>
    if v > 0 then
      some { current_price := v
             company_name := name
             previous_close :=
               match pc with
               | some w => if w ≠ 0 then w else v * (199/200)
               | none => v * (199/200)
             symbol := sym
             is_real := true }
    else none
  | none => none

/-- Embedding of `fetch_real_current_price`: symbol normalization followed by
the three access methods and the final positivity guard; an exception from
`yf.Ticker` itself hits the outer handler and returns `None`. -/
def fetch_real_current_price (symbol : String) (tickerRes : Except String Unit)
    (infoRes : Except String InfoResp) (histRes : Except String (List Rat))
    (fastRes : Except String FastResp) : Option RealPriceResult :=
  match tickerRes with
  | .error _ => none
  | .ok _ =>
    let sym := if pyEndsWith symbol ".NS" || pyEndsWith symbol ".BO" then symbol
               else symbol ++ ".NS"
    let m1 := fetchMethod1 infoRes
    let m2 := fetchMethod2 histRes m1.1 m1.2.2
    let m3 := fetchMethod3 fastRes m2.1 m2.2
    fetchFinalize sym m1.2.1 m3.1 m3.2

lemma fetchFinalize_pos (sym : String) (name : Option String) (cp pc : Option Rat) :
    fetchFinalize sym name cp pc = none ∨
    ∃ r, fetchFinalize sym name cp pc = some r ∧ 0 < r.current_price := by
  unfold fetchFinalize
  cases cp with
  | none => exact Or.inl rfl
  | some v =>
    dsimp only
    by_cases h : v > 0
    · exact Or.inr ⟨_, by rw [if_pos h], h⟩
    · exact Or.inl (by rw [if_neg h])

/-- Previous-close candidates are positive whenever present and truthy. -/
def pcOK (pc : Option Rat) : Prop :=
  ∀ w, pc = some w → w ≠ 0 → 0 < w

lemma ilocLast_mem : ∀ (l : List Rat), l ≠ [] → ilocLast l ∈ l
  | [], h => absurd rfl h
  | [x], _ => by simp [ilocLast]
  | _ :: x :: rest, _ => by
    rw [show ilocLast (_ :: x :: rest) = ilocLast (x :: rest) from rfl]
    exact List.mem_cons_of_mem _ (ilocLast_mem (x :: rest) (by simp))

lemma fetchFinalize_prev_pos (sym : String) (name : Option String) (cp pc : Option Rat)
    (hpc : pcOK pc) :
    ∀ r, fetchFinalize sym name cp pc = some r → 0 < r.previous_close := by
  intro r hr
  unfold fetchFinalize at hr
  cases cp with
  | none => exact absurd hr (by simp)
  | some v =>
    dsimp only at hr
    by_cases h : v > 0
    · rw [if_pos h] at hr
      cases hr
      cases pc with
      | none =>
        show 0 < v * (199/200)
        positivity
      | some w =>
        by_cases hw : w ≠ 0
        · show 0 < if w ≠ 0 then w else v * (199/200)
          rw [if_pos hw]
          exact hpc w rfl hw
        · show 0 < if w ≠ 0 then w else v * (199/200)
          rw [if_neg hw]
          positivity
    · rw [if_neg h] at hr
      exact absurd hr (by simp)

lemma fetchMethod2_pc_ok (histRes : Except String (List Rat)) (cp pc : Option Rat)
    (hpc : pcOK pc)
    (hhist : ∀ closes, histRes = .ok closes → ∀ c ∈ closes, 0 < c) :
    pcOK (fetchMethod2 histRes cp pc).2 := by
  unfold fetchMethod2
  by_cases hcp : cp = none
  · rw [if_pos hcp]
    cases histRes with
    | error e => exact hpc
    | ok closes =>
      by_cases hne : closes.isEmpty
      · simpa [hne] using hpc
      · have hclosed : ∀ c ∈ closes, 0 < c := hhist closes rfl
        have hnil : closes ≠ [] := by
          cases closes with
          | nil => simp at hne
          | cons a l => simp
        by_cases hlen : closes.length > 1
        · simp only [hne, hlen, if_true, if_false, Bool.false_eq_true]
          intro w hw _
          have : ilocPenult closes ∈ closes := by
            have hdl : closes.dropLast ≠ [] := by
              intro hd
              have := congrArg List.length hd
              rw [List.length_dropLast] at this
              simp at this
              omega
            exact List.dropLast_subset closes (ilocLast_mem _ hdl)
          simp only [hne, hlen, if_true, if_false, Bool.false_eq_true,
            Option.some.injEq] at hw
          exact hw ▸ hclosed _ this
        · simp only [hne, hlen, if_false, Bool.false_eq_true]
          intro w hw _
          simp only [Option.some.injEq] at hw
          have hlast : 0 < ilocLast closes := hclosed _ (ilocLast_mem closes hnil)
          rw [← hw]
          positivity
  · rw [if_neg hcp]
    exact hpc

lemma fetchMethod3_pc_ok (fastRes : Except String FastResp) (cp pc : Option Rat)
    (hpc : pcOK pc)
    (hfast : ∀ fast, fastRes = .ok fast → pcOK fast.previousClose) :
    pcOK (fetchMethod3 fastRes cp pc).2 := by
  unfold fetchMethod3
  by_cases hcp : cp = none
  · rw [if_pos hcp]
    cases fastRes with
    | error e => exact hpc
    | ok fast => exact hfast fast rfl
  · rw [if_neg hcp]
    exact hpc

/-- C8 counterexample: when `ticker.info` supplies `currentPrice = 100`
together with `previousClose = -1` (truthy, so the 0.995 substitute is not
used), the function returns a result whose `previous_close` is negative —
the claim's parenthetical "previous_close is positive as well" is false. -/
theorem fetch_real_price_negative_prev_close_counterexample :
    fetch_real_current_price "TCS.NS" (.ok ())
        (.ok ⟨some 100, none, none, none, some (-1)⟩) (.ok []) (.ok ⟨none, none⟩)
      = some ⟨100, none, -1, "TCS.NS", true⟩ ∧
    ¬ (0 : Rat) < -1 := by
  constructor
  · rfl
  · norm_num

/-- C8 amended: `fetch_real_current_price` returns either `None` or a result
whose `current_price` is strictly positive; and the result's
`previous_close` is strictly positive as well provided every previous-close
value the data source supplies is positive whenever truthy and the history
closes are positive. -/
theorem fetch_real_price_positive (symbol : String) (tickerRes : Except String Unit)
    (infoRes : Except String InfoResp) (histRes : Except String (List Rat))
    (fastRes : Except String FastResp)
    (hinfo : ∀ info, infoRes = .ok info → pcOK info.previousClose)
    (hhist : ∀ closes, histRes = .ok closes → ∀ c ∈ closes, 0 < c)
    (hfast : ∀ fast, fastRes = .ok fast → pcOK fast.previousClose) :
    (fetch_real_current_price symbol tickerRes infoRes histRes fastRes = none ∨
      ∃ r, fetch_real_current_price symbol tickerRes infoRes histRes fastRes = some r ∧
        0 < r.current_price) ∧
    (∀ r, fetch_real_current_price symbol tickerRes infoRes histRes fastRes = some r →
      0 < r.previous_close) := by
  cases tickerRes with
  | error e => exact ⟨Or.inl rfl, fun r hr => absurd hr (by simp [fetch_real_current_price])⟩
  | ok u =>
    have hm1 : pcOK (fetchMethod1 infoRes).2.2 := by
      unfold fetchMethod1
      cases infoRes with
      | error e => intro w hw; simp at hw
      | ok info => exact hinfo info rfl
    have hm2 := fetchMethod2_pc_ok histRes (fetchMethod1 infoRes).1
      (fetchMethod1 infoRes).2.2 hm1 hhist
    have hm3 := fetchMethod3_pc_ok fastRes (fetchMethod2 histRes (fetchMethod1 infoRes).1
      (fetchMethod1 infoRes).2.2).1 (fetchMethod2 histRes (fetchMethod1 infoRes).1
      (fetchMethod1 infoRes).2.2).2 hm2 hfast
    exact ⟨fetchFinalize_pos _ _ _ _, fetchFinalize_prev_pos _ _ _ _ hm3⟩

/-- C8 amended witness: with a positive previous close from `ticker.info`,
the result is the supplied quote with both prices positive. -/
theorem fetch_real_price_positive_witness :
    (∀ info, (Except.ok ⟨some 100, none, none, none, some 95⟩ :
        Except String InfoResp) = .ok info → pcOK info.previousClose) ∧
    (∀ closes, (Except.ok [] : Except String (List Rat)) = .ok closes →
      ∀ c ∈ closes, 0 < c) ∧
    (∀ fast, (Except.ok ⟨none, none⟩ : Except String FastResp) = .ok fast →
      pcOK fast.previousClose) ∧
    (fetch_real_current_price "TCS.NS" (.ok ())
        (.ok ⟨some 100, none, none, none, some 95⟩) (.ok []) (.ok ⟨none, none⟩) = none ∨
      ∃ r, fetch_real_current_price "TCS.NS" (.ok ())
          (.ok ⟨some 100, none, none, none, some 95⟩) (.ok []) (.ok ⟨none, none⟩) = some r ∧
        0 < r.current_price) ∧
    (∀ r, fetch_real_current_price "TCS.NS" (.ok ())
        (.ok ⟨some 100, none, none, none, some 95⟩) (.ok []) (.ok ⟨none, none⟩) = some r →
      0 < r.previous_close) := by
  have h1 : ∀ info, (Except.ok ⟨some 100, none, none, none, some 95⟩ :
      Except String InfoResp) = .ok info → pcOK info.previousClose := by
    intro info hinfo w hw _
    cases hinfo
    simp only [Option.some.injEq] at hw
    rw [← hw]
    norm_num
  have h2 : ∀ closes, (Except.ok [] : Except String (List Rat)) = .ok closes →
      ∀ c ∈ closes, 0 < c := by
    intro closes hc c hmem
    cases hc
    simp at hmem
  have h3 : ∀ fast, (Except.ok ⟨none, none⟩ : Except String FastResp) = .ok fast →
      pcOK fast.previousClose := by
    intro fast hf w hw
    cases hf
    simp at hw
  obtain ⟨ha, hb⟩ := fetch_real_price_positive "TCS.NS" (.ok ())
    (.ok ⟨some 100, none, none, none, some 95⟩) (.ok []) (.ok ⟨none, none⟩) h1 h2 h3
  exact ⟨h1, h2, h3, ha, hb⟩

end MoneySavyy
